import Mathlib

/-!
Verification development for the float-flow layout pass of a browser layout
engine (src/components/main/layout/float.rs).

The embedding translates the data model and the three sizing passes of
FloatFlowData (bubble_widths_float, assign_widths_float, assign_height_float)
into pure Lean functions.  Fixed-point lengths (Au) are modelled as integers;
the mutable flow tree becomes an explicit tree value and each pass becomes a
function from trees to trees.  Collaborator modules that are not part of the
given source (layout::model, layout::float_context, style values) are modelled
from the specification and are marked as such in their doc comments.
-/

namespace Servo

/-- Fixed-point length unit (gfx::geometry::Au), an integer count of
sub-pixel units.  geometry::max / geometry::min are integer max / min. -/
abbrev Au := Int

/-- geom::point::Point2D specialised to Au. -/
structure Point2D where
  x : Au
  y : Au
deriving DecidableEq, Repr

/-- geom::size::Size2D specialised to Au. -/
structure Size2D where
  width : Au
  height : Au
deriving DecidableEq, Repr

/-- geom::rect::Rect specialised to Au: an origin point and a size. -/
structure Rect where
  origin : Point2D
  size : Size2D
deriving DecidableEq, Repr

/-- Four edge widths (geom::side_offsets::SideOffsets2D) used for the
margin, border and padding of a box model. -/
structure SideOffsets2D where
  top : Au
  right : Au
  bottom : Au
  left : Au
deriving DecidableEq, Repr

/-- Modelled from the spec: a per-box style declaration for margin, width or
height is either an explicit length, a percentage, or auto; a non-auto value
resolves against the containing width.  The resolution of a non-auto value is
represented by its resolve function (a constant function for a length,
a scaling function for a percentage).  The style parser itself is outside the
given source. -/
inductive CSSValue where
  | auto
  | specified (resolve : Au → Au)

/-- Modelled from the spec: layout::model::MaybeAuto, the result of resolving
a style value against a containing width: either Auto or a specified Au. -/
inductive MaybeAuto where
  | Auto
  | Specified (v : Au)

/-- Modelled from the spec: MaybeAuto::from_margin resolves a margin style
value against the containing width; auto stays Auto, a length or percentage
becomes Specified. -/
def MaybeAuto.from_margin (m : CSSValue) (containing : Au) : MaybeAuto :=
  match m with
  | .auto => .Auto
  | .specified f => .Specified (f containing)

/-- Modelled from the spec: MaybeAuto::from_width resolves a width style
value against the containing width. -/
def MaybeAuto.from_width (m : CSSValue) (containing : Au) : MaybeAuto :=
  match m with
  | .auto => .Auto
  | .specified f => .Specified (f containing)

/-- Modelled from the spec: MaybeAuto::from_height resolves a height style
value against the containing height. -/
def MaybeAuto.from_height (m : CSSValue) (containing : Au) : MaybeAuto :=
  match m with
  | .auto => .Auto
  | .specified f => .Specified (f containing)

/-- Modelled from the spec: MaybeAuto::spec_or_default returns the specified
value, or the given default when the style value was auto. -/
def MaybeAuto.spec_or_default (m : MaybeAuto) (default : Au) : Au :=
  match m with
  | .Auto => default
  | .Specified v => v

/-- Modelled from the spec: the read-only style of a render box.  Margin,
width and height declarations are CSSValue; border widths do not depend on
the containing width (model.compute_borders reads them directly from style),
while padding resolves against the containing width (model.compute_padding),
represented here by a resolution function. -/
structure Style where
  margin_top : CSSValue
  margin_right : CSSValue
  margin_bottom : CSSValue
  margin_left : CSSValue
  width : CSSValue
  height : CSSValue
  border : SideOffsets2D
  padding : Au → SideOffsets2D

/-- Modelled from the spec: layout::model::BoxModel, the mutable
margin/border/padding state of a render box. -/
structure BoxModel where
  margin : SideOffsets2D
  border : SideOffsets2D
  padding : SideOffsets2D

/-- Modelled from the spec: BoxModel::offset() is the content-area starting
offset, the sum of left margin, left border and left padding. -/
def BoxModel.offset (m : BoxModel) : Au :=
  m.margin.left + m.border.left + m.padding.left

/-- A render box: read-only style, a box model, its border-box rectangle, and
its intrinsic widths (the results of get_min_width / get_pref_width, which
depend only on the layout context and content and are treated as fixed
inputs). -/
structure RenderBox where
  style : Style
  model : BoxModel
  position : Rect
  min_width : Au
  pref_width : Au

/-- The side a float is placed against (layout::float_context::FloatType). -/
inductive FloatType where
  | FloatLeft
  | FloatRight
deriving DecidableEq, Repr

/-- layout::float_context::PlacementInfo: a float placement request. -/
structure PlacementInfo where
  width : Au
  height : Au
  ceiling : Au
  max_width : Au
  f_type : FloatType
deriving DecidableEq, Repr

/-- Modelled from the spec: layout::float_context::FloatContext (the float
placement state) is not part of the given source; the spec specifies only its
value-semantics contract: new(float_count_hint) builds a fresh state and
add_float consumes a state and a request and returns a new state.  The state
is therefore modelled as the free value generated by those two operations. -/
inductive FloatContext where
  | new (num_floats : Nat)
  | add (prev : FloatContext) (info : PlacementInfo)
deriving DecidableEq, Repr

/-- FloatContext::add_float submits a placement request and returns the new
placement state (value semantics, no in-place mutation). -/
def FloatContext.add_float (c : FloatContext) (info : PlacementInfo) : FloatContext :=
  .add c info

/-- layout::flow::FlowData: layout state common to all flow nodes. -/
structure FlowData where
  id : Int
  position : Rect
  min_width : Au
  pref_width : Au
  num_floats : Nat
  floats_in : FloatContext
  floats_out : FloatContext

/-- layout::float::FloatFlowData: the float-flow specialisation, owning the
common flow data, an optional render box, the cached containing width and an
optional index among sibling inline floats. -/
structure FloatFlowData where
  common : FlowData
  box : Option RenderBox
  containing_width : Au
  index : Option Nat

/-! ### Node-level passes

Each pass of FloatFlowData touches its children only through their common
FlowData (the source's with_mut_base), so the node-level behaviour of a pass
is a function of the node's own FloatFlowData and the list of its children's
FlowData, returning the updated node data and updated child data. -/

/-- Child update of bubble_widths_float: reset the child's incoming float
placement state to a fresh one sized by the child's num_floats
(child_node.floats_in = FloatContext::new(child_node.num_floats)). -/
def bubbleChild (b : FlowData) : FlowData :=
  { b with floats_in := FloatContext.new b.num_floats }

/-- The child loop of bubble_widths_float: in document order, fold each
child's min_width / pref_width into running maxima and reset the child's
floats_in. -/
def bubbleLoop : List FlowData → Au → Au → Au × Au × List FlowData
  | [], mn, pf => (mn, pf, [])
  | b :: bs, mn, pf =>
    let r := bubbleLoop bs (max mn b.min_width) (max pf b.pref_width)
    (r.1, r.2.1, bubbleChild b :: r.2.2)

/-- The per-node finish of bubble_widths_float: set num_floats = 1; if an own
render box exists, compute its borders from style and add its intrinsic
min/pref widths to the folded maxima; store the results in the common data. -/
def bubbleNodeFinish (d : FloatFlowData) (mn pf : Au) : FloatFlowData :=
  match d.box with
  | none =>
    { d with common := { d.common with num_floats := 1, min_width := mn, pref_width := pf } }
  | some box =>
    { d with
      common :=
        { d.common with
          num_floats := 1
          min_width := mn + box.min_width
          pref_width := pf + box.pref_width }
      box := some { box with model := { box.model with border := box.style.border } } }

/-- FloatFlowData::bubble_widths_float at one node: the children are assumed
already bubbled by the post-order traversal driver. -/
def bubble_widths_float (d : FloatFlowData) (kids : List FlowData) :
    FloatFlowData × List FlowData :=
  let r := bubbleLoop kids 0 0
  (bubbleNodeFinish d r.1 r.2.1, r.2.2)

/-- The shrink-to-fit clamp used by assign_widths_float:
min(pref_width, max(min_width, remaining_width)). -/
def floatShrinkToFit (d : FloatFlowData) (remaining : Au) : Au :=
  min d.common.pref_width (max d.common.min_width remaining)

/-- The resolved width of a float-flow node during assign_widths_float: with
no own box the parent-assigned width (position.size.width) passes through
unchanged; with a box the declared style width resolves against the
parent-assigned width, defaulting to shrink-to-fit when auto. -/
def floatResolvedWidth (d : FloatFlowData) : Au :=
  match d.box with
  | none => d.common.position.size.width
  | some box =>
    (MaybeAuto.from_width box.style.width d.common.position.size.width).spec_or_default
      (floatShrinkToFit d d.common.position.size.width)

/-- The box model produced by the with_model block of assign_widths_float:
padding computed against the remaining (parent-assigned) width, and the four
margins resolved with auto defaulting to 0. -/
def floatNewModel (box : RenderBox) (remaining : Au) : BoxModel :=
  { box.model with
    padding := box.style.padding remaining,
    margin :=
      { top := (MaybeAuto.from_margin box.style.margin_top remaining).spec_or_default 0,
        right := (MaybeAuto.from_margin box.style.margin_right remaining).spec_or_default 0,
        bottom := (MaybeAuto.from_margin box.style.margin_bottom remaining).spec_or_default 0,
        left := (MaybeAuto.from_margin box.style.margin_left remaining).spec_or_default 0 } }

/-- The x_offset recorded by assign_widths_float: 0 with no own box,
otherwise model.offset() of the freshly resolved box model. -/
def floatXOffset (d : FloatFlowData) : Au :=
  match d.box with
  | none => 0
  | some box => (floatNewModel box d.common.position.size.width).offset

/-- Child update of assign_widths_float: every child receives the same
x offset as position.origin.x and the same width as position.size.width. -/
def setKidXW (x w : Au) (b : FlowData) : FlowData :=
  { b with position :=
      { b.position with
        origin := { b.position.origin with x := x },
        size := { b.position.size with width := w } } }

/-- The per-node result of assign_widths_float: cache containing_width (the
parent-assigned width); if an own box exists resolve its model
(padding/margins) and set its border-box origin-x to the left margin and its
border-box width to resolved width plus horizontal padding and border;
finally store the resolved width as the node's own position.size.width. -/
def assignWidthsData (d : FloatFlowData) : FloatFlowData :=
  let remaining_width := d.common.position.size.width
  let rw := floatResolvedWidth d
  let box2 : Option RenderBox :=
    match d.box with
    | none => none
    | some box =>
      let model2 := floatNewModel box remaining_width
      let pb := model2.padding.left + model2.padding.right +
        model2.border.left + model2.border.right
      some { box with
             model := model2,
             position :=
               { origin := { x := model2.margin.left, y := box.position.origin.y },
                 size := { width := rw + pb, height := box.position.size.height } } }
  { d with
    containing_width := remaining_width,
    box := box2,
    common := { d.common with position :=
      { d.common.position with size := { d.common.position.size with width := rw } } } }

/-- FloatFlowData::assign_widths_float at one node: resolve the node's own
box and width, then hand every child the same x offset and width (the
pre-order driver recurses into the children afterwards). -/
def assign_widths_float (d : FloatFlowData) (kids : List FlowData) :
    FloatFlowData × List FlowData :=
  (assignWidthsData d, kids.map (setKidXW (floatXOffset d) (floatResolvedWidth d)))

/-- top_offset of assign_height_float: the own box's margin-top + border-top
+ padding-top, or 0 with no own box. -/
def floatTopOffset (d : FloatFlowData) : Au :=
  match d.box with
  | none => 0
  | some box => box.model.margin.top + box.model.border.top + box.model.padding.top

/-- Child update of the stacking loop: set the child's position.origin.y. -/
def setKidY (y : Au) (b : FlowData) : FlowData :=
  { b with position := { b.position with origin := { b.position.origin with y := y } } }

/-- The stacking loop of assign_height_float: in document order set each
child's origin-y to the running cur_y and advance cur_y by the child's
height; returns the final cur_y and the updated children. -/
def assignYsLoop : List FlowData → Au → Au × List FlowData
  | [], cur => (cur, [])
  | b :: bs, cur =>
    let r := assignYsLoop bs (cur + b.position.size.height)
    (r.1, setKidY cur b :: r.2)

/-- The sum of the children's heights (position.size.height). -/
def sumHeights : List FlowData → Au
  | [] => 0
  | b :: bs => b.position.size.height + sumHeights bs

/-- The content height computed by assign_height_float: cur_y - top_offset
after the stacking loop. -/
def floatContentHeight (d : FloatFlowData) (kids : List FlowData) : Au :=
  (assignYsLoop kids (floatTopOffset d)).1 - floatTopOffset d

/-- noncontent_height before margins are folded in: vertical padding plus
vertical border of the own box. -/
def floatNoncontentHeight (box : RenderBox) : Au :=
  box.model.padding.top + box.model.padding.bottom +
    box.model.border.top + box.model.border.bottom

/-- The final height computed by assign_height_float (the value submitted to
the placement algorithm and stored in the box rectangle): the content height
with no own box; with a box, max of content height and the declared style
height (resolved against 0, defaulting to 0), plus vertical padding, border
and margin. -/
def floatFinalHeight (d : FloatFlowData) (kids : List FlowData) : Au :=
  match d.box with
  | none => floatContentHeight d kids
  | some box =>
    max (floatContentHeight d kids)
        ((MaybeAuto.from_height box.style.height 0).spec_or_default 0) +
      (floatNoncontentHeight box + box.model.margin.top + box.model.margin.bottom)

/-- The per-node result of assign_height_float: if an own box exists set its
border-box origin-y to its top margin and its border-box height to the final
height; submit a left-float placement request {assigned width, final height,
ceiling 0, containing_width} to floats_in and store the returned placement
state in floats_out. -/
def assignHeightData (d : FloatFlowData) (kids : List FlowData) : FloatFlowData :=
  let height := floatFinalHeight d kids
  let box2 : Option RenderBox :=
    match d.box with
    | none => none
    | some box =>
      some { box with position :=
        { origin := { x := box.position.origin.x, y := box.model.margin.top },
          size := { width := box.position.size.width, height := height } } }
  let info : PlacementInfo :=
    { width := d.common.position.size.width,
      height := height,
      ceiling := 0,
      max_width := d.containing_width,
      f_type := .FloatLeft }
  { d with
    box := box2,
    common := { d.common with floats_out := d.common.floats_in.add_float info } }

/-- FloatFlowData::assign_height_float at one node: the children are assumed
already height-assigned (the method recurses into them first); stack the
children vertically from top_offset, compute the heights and register the
float footprint. -/
def assign_height_float (d : FloatFlowData) (kids : List FlowData) :
    FloatFlowData × List FlowData :=
  (assignHeightData d kids, (assignYsLoop kids (floatTopOffset d)).2)

/-! ### Characterisations of the loops -/

theorem bubbleLoop_fst (kids : List FlowData) (mn pf : Au) :
    (bubbleLoop kids mn pf).1 = kids.foldl (fun a b => max a b.min_width) mn := by
  induction kids generalizing mn pf with
  | nil => simp [bubbleLoop]
  | cons b bs ih => simp [bubbleLoop, ih]

theorem bubbleLoop_snd_fst (kids : List FlowData) (mn pf : Au) :
    (bubbleLoop kids mn pf).2.1 = kids.foldl (fun a b => max a b.pref_width) pf := by
  induction kids generalizing mn pf with
  | nil => simp [bubbleLoop]
  | cons b bs ih => simp [bubbleLoop, ih]

theorem bubbleLoop_snd_snd (kids : List FlowData) (mn pf : Au) :
    (bubbleLoop kids mn pf).2.2 = kids.map bubbleChild := by
  induction kids generalizing mn pf with
  | nil => simp [bubbleLoop]
  | cons b bs ih => simp [bubbleLoop, ih]

theorem assignYsLoop_fst (kids : List FlowData) (cur : Au) :
    (assignYsLoop kids cur).1 = cur + sumHeights kids := by
  induction kids generalizing cur with
  | nil => simp [assignYsLoop, sumHeights]
  | cons b bs ih => simp [assignYsLoop, sumHeights, ih]; ring

theorem assignYsLoop_get (kids : List FlowData) (cur : Au) (i : Nat) :
    (assignYsLoop kids cur).2.get? i =
      (kids.get? i).map (fun b => setKidY (cur + sumHeights (kids.take i)) b) := by
  induction kids generalizing cur i with
  | nil => simp [assignYsLoop]
  | cons b bs ih =>
    cases i with
    | zero => simp [assignYsLoop, sumHeights]
    | succ j =>
      have h : cur + b.position.size.height + sumHeights (bs.take j) =
          cur + sumHeights ((b :: bs).take (j + 1)) := by
        simp [sumHeights]; ring
      simp only [assignYsLoop, List.get?_cons_succ, List.get?, ih, h]

theorem assignYsLoop_shape (kids : List FlowData) (cur : Au) :
    List.Forall₂ (fun b2 b => b2 = setKidY b2.position.origin.y b)
      (assignYsLoop kids cur).2 kids := by
  induction kids generalizing cur with
  | nil => simp [assignYsLoop]
  | cons b bs ih =>
    refine List.Forall₂.cons ?_ (ih _)
    rfl

/-! ### Spec-side abbreviations used to state the claims -/

/-- The maximum of the children's min_widths together with the initial 0
(the code folds max starting from Au(0)). -/
def childrenMaxMinWidth (kids : List FlowData) : Au :=
  kids.foldl (fun a b => max a b.min_width) 0

/-- The maximum of the children's pref_widths together with the initial 0. -/
def childrenMaxPrefWidth (kids : List FlowData) : Au :=
  kids.foldl (fun a b => max a b.pref_width) 0

/-- The own render box's intrinsic min width, 0 when there is no box. -/
def boxMinWidth (d : FloatFlowData) : Au :=
  match d.box with
  | none => 0
  | some box => box.min_width

/-- The own render box's intrinsic pref width, 0 when there is no box. -/
def boxPrefWidth (d : FloatFlowData) : Au :=
  match d.box with
  | none => 0
  | some box => box.pref_width

/-! ### Claim theorems (node level) -/

/-- Claim C1: after assign_widths_float on a node with an own render box, the
assigned width (common.position.size.width) is the resolved declared style
width when one is specified, and otherwise the shrink-to-fit clamp
min(pref_width, max(min_width, parent-assigned width)). -/
theorem c1_assigned_width (d : FloatFlowData) (kids : List FlowData)
    (box : RenderBox) (hb : d.box = some box) :
    (∀ f, box.style.width = CSSValue.specified f →
      (assign_widths_float d kids).1.common.position.size.width =
        f d.common.position.size.width) ∧
    (box.style.width = CSSValue.auto →
      (assign_widths_float d kids).1.common.position.size.width =
        min d.common.pref_width (max d.common.min_width d.common.position.size.width)) := by
  constructor
  · intro f hf
    simp [assign_widths_float, assignWidthsData, floatResolvedWidth, hb, hf,
      MaybeAuto.from_width, MaybeAuto.spec_or_default]
  · intro hf
    simp [assign_widths_float, assignWidthsData, floatResolvedWidth, hb, hf,
      MaybeAuto.from_width, MaybeAuto.spec_or_default, floatShrinkToFit]

/-- A concrete style whose margin, width and height declarations are all
auto, with zero borders and zero padding. -/
def style0 : Style :=
  { margin_top := .auto, margin_right := .auto, margin_bottom := .auto,
    margin_left := .auto, width := .auto, height := .auto,
    border := ⟨0, 0, 0, 0⟩, padding := fun _ => ⟨0, 0, 0, 0⟩ }

/-- A zero box model. -/
def model0 : BoxModel :=
  { margin := ⟨0, 0, 0, 0⟩, border := ⟨0, 0, 0, 0⟩, padding := ⟨0, 0, 0, 0⟩ }

/-- A concrete render box with intrinsic min width 100 and pref width 250. -/
def box0 : RenderBox :=
  { style := style0, model := model0, position := ⟨⟨0, 0⟩, ⟨0, 0⟩⟩,
    min_width := 100, pref_width := 250 }

/-- A concrete float-flow node owning box0, bubbled to min 100 / pref 250,
with parent-assigned width 300. -/
def d1 : FloatFlowData :=
  { common :=
      { id := 0, position := ⟨⟨0, 0⟩, ⟨300, 0⟩⟩, min_width := 100,
        pref_width := 250, num_floats := 0,
        floats_in := .new 0, floats_out := .new 0 },
    box := some box0, containing_width := 0, index := none }

/-- Witness for C1 at a concrete input (scenario A: containing width 300, no
style width, min 100 / pref 250, so the assigned width shrinks to 250). -/
theorem c1_assigned_width_witness :
    d1.box = some box0 ∧ box0.style.width = CSSValue.auto ∧
    (assign_widths_float d1 []).1.common.position.size.width =
      min d1.common.pref_width (max d1.common.min_width d1.common.position.size.width) ∧
    (assign_widths_float d1 []).1.common.position.size.width = 250 :=
  ⟨rfl, rfl, (c1_assigned_width d1 [] box0 rfl).2 rfl,
    by rw [(c1_assigned_width d1 [] box0 rfl).2 rfl]; rfl⟩

/-- Claim C2: after assign_height_float, the i-th child's origin-y is
top_offset plus the sum of the heights of the children before it (the child
is otherwise unchanged), and the computed content height (cur_y − top_offset)
is the sum of all the children's heights. -/
theorem c2_stacking (d : FloatFlowData) (kids : List FlowData) :
    (∀ i : Nat, (assign_height_float d kids).2.get? i =
      (kids.get? i).map (fun b =>
        setKidY (floatTopOffset d + sumHeights (kids.take i)) b)) ∧
    floatContentHeight d kids = sumHeights kids := by
  constructor
  · intro i
    simpa [assign_height_float] using assignYsLoop_get kids (floatTopOffset d) i
  · simp [floatContentHeight, assignYsLoop_fst]

/-- The placement submission performed by assign_height_float, read off the
definition. -/
theorem floatsOutSpec (d : FloatFlowData) (kids : List FlowData) :
    (assign_height_float d kids).1.common.floats_out =
      d.common.floats_in.add_float
        { width := d.common.position.size.width,
          height := floatFinalHeight d kids,
          ceiling := 0,
          max_width := d.containing_width,
          f_type := FloatType.FloatLeft } := rfl

/-- Claim C3: assign_height_float submits exactly one placement request to
floats_in — width the node's assigned width, height the final computed
height, ceiling 0, max_width the cached containing_width, side left — and
stores the returned state in floats_out.  (In the free value model of the
placement state, equality with a single add_float application expresses that
exactly one request was submitted.) -/
theorem c3_placement (d : FloatFlowData) (kids : List FlowData) :
    (assign_height_float d kids).1.common.floats_out =
      d.common.floats_in.add_float
        { width := d.common.position.size.width,
          height := floatFinalHeight d kids,
          ceiling := 0,
          max_width := d.containing_width,
          f_type := FloatType.FloatLeft } := floatsOutSpec d kids

/-- Claim C4: after bubble_widths_float, num_floats is 1; each child's
floats_in is reset to a fresh placement state sized by that child's
num_floats; and min_width (resp. pref_width) is the children's folded
maximum min (resp. pref) width plus the own box's intrinsic min (resp. pref)
width when a box is present. -/
theorem c4_bubble (d : FloatFlowData) (kids : List FlowData) :
    (bubble_widths_float d kids).1.common.num_floats = 1 ∧
    (∀ i : Nat, (bubble_widths_float d kids).2.get? i =
      (kids.get? i).map (fun b =>
        { b with floats_in := FloatContext.new b.num_floats })) ∧
    (bubble_widths_float d kids).1.common.min_width =
      childrenMaxMinWidth kids + boxMinWidth d ∧
    (bubble_widths_float d kids).1.common.pref_width =
      childrenMaxPrefWidth kids + boxPrefWidth d := by
  refine ⟨?_, ?_, ?_, ?_⟩
  · cases hb : d.box <;> simp [bubble_widths_float, bubbleNodeFinish, hb]
  · intro i
    simp only [bubble_widths_float, bubbleLoop_snd_snd, List.get?_eq_getElem?,
      List.getElem?_map]
    cases kids[i]? <;> simp [bubbleChild]
  · cases hb : d.box <;>
      simp [bubble_widths_float, bubbleNodeFinish, hb, bubbleLoop_fst,
        childrenMaxMinWidth, boxMinWidth]
  · cases hb : d.box <;>
      simp [bubble_widths_float, bubbleNodeFinish, hb, bubbleLoop_snd_fst,
        childrenMaxPrefWidth, boxPrefWidth]

/-- Claim C5: after assign_widths_float every child, in order, receives the
same x offset and the same width; with no own render box the x offset is 0
and the width is the parent-assigned width passed through unchanged. -/
theorem c5_children (d : FloatFlowData) (kids : List FlowData) :
    (assign_widths_float d kids).2 =
      kids.map (setKidXW (floatXOffset d) (floatResolvedWidth d)) ∧
    (d.box = none →
      floatXOffset d = 0 ∧ floatResolvedWidth d = d.common.position.size.width) := by
  refine ⟨rfl, fun hb => ⟨?_, ?_⟩⟩
  · simp [floatXOffset, hb]
  · simp [floatResolvedWidth, hb]

/-- A concrete float-flow node with no render box and parent-assigned
width 300. -/
def d5 : FloatFlowData :=
  { common :=
      { id := 2, position := ⟨⟨0, 0⟩, ⟨300, 0⟩⟩, min_width := 0,
        pref_width := 0, num_floats := 0,
        floats_in := .new 0, floats_out := .new 0 },
    box := none, containing_width := 0, index := none }

/-- Witness for C5 at a concrete boxless node. -/
theorem c5_children_witness :
    (assign_widths_float d5 []).2 =
      [].map (setKidXW (floatXOffset d5) (floatResolvedWidth d5)) ∧
    d5.box = none ∧ floatXOffset d5 = 0 ∧
    floatResolvedWidth d5 = d5.common.position.size.width :=
  ⟨(c5_children d5 []).1, rfl, ((c5_children d5 []).2 rfl).1,
    ((c5_children d5 []).2 rfl).2⟩

/-- Claim C6: during assign_widths_float on a node with an own render box,
each margin whose style value is auto resolves to 0 (auto margins on a float
never center the box, for any containing width). -/
theorem c6_auto_margins (d : FloatFlowData) (kids : List FlowData)
    (box : RenderBox) (hb : d.box = some box) :
    (box.style.margin_top = CSSValue.auto →
      ((assign_widths_float d kids).1.box.map fun b => b.model.margin.top) = some 0) ∧
    (box.style.margin_right = CSSValue.auto →
      ((assign_widths_float d kids).1.box.map fun b => b.model.margin.right) = some 0) ∧
    (box.style.margin_bottom = CSSValue.auto →
      ((assign_widths_float d kids).1.box.map fun b => b.model.margin.bottom) = some 0) ∧
    (box.style.margin_left = CSSValue.auto →
      ((assign_widths_float d kids).1.box.map fun b => b.model.margin.left) = some 0) := by
  refine ⟨fun h => ?_, fun h => ?_, fun h => ?_, fun h => ?_⟩ <;>
    simp [assign_widths_float, assignWidthsData, hb, floatNewModel, h,
      MaybeAuto.from_margin, MaybeAuto.spec_or_default]

/-- Witness for C6: on the all-auto style box, all four resolved margins
are 0. -/
theorem c6_auto_margins_witness :
    d1.box = some box0 ∧
    box0.style.margin_top = CSSValue.auto ∧
    ((assign_widths_float d1 []).1.box.map fun b => b.model.margin.top) = some 0 ∧
    ((assign_widths_float d1 []).1.box.map fun b => b.model.margin.right) = some 0 ∧
    ((assign_widths_float d1 []).1.box.map fun b => b.model.margin.bottom) = some 0 ∧
    ((assign_widths_float d1 []).1.box.map fun b => b.model.margin.left) = some 0 :=
  ⟨rfl, rfl,
    (c6_auto_margins d1 [] box0 rfl).1 rfl,
    (c6_auto_margins d1 [] box0 rfl).2.1 rfl,
    (c6_auto_margins d1 [] box0 rfl).2.2.1 rfl,
    (c6_auto_margins d1 [] box0 rfl).2.2.2 rfl⟩

/-- Monotonicity of the two max folds of bubble_widths_float. -/
theorem foldl_max_min_le_pref (kids : List FlowData) (am ap : Au)
    (h : am ≤ ap) (hk : ∀ b ∈ kids, b.min_width ≤ b.pref_width) :
    kids.foldl (fun a b => max a b.min_width) am ≤
      kids.foldl (fun a b => max a b.pref_width) ap := by
  induction kids generalizing am ap with
  | nil => simpa using h
  | cons b bs ih =>
    simp only [List.foldl_cons]
    exact ih _ _ (max_le_max h (hk b (by simp)))
      (fun c hc => hk c (by simp [hc]))

/-- Claim C7: if every child satisfies min_width ≤ pref_width and the own
render box (when present) reports min width ≤ pref width, then after
bubble_widths_float the node satisfies min_width ≤ pref_width. -/
theorem c7_min_le_pref (d : FloatFlowData) (kids : List FlowData)
    (hk : ∀ b ∈ kids, b.min_width ≤ b.pref_width)
    (hb : ∀ box, d.box = some box → box.min_width ≤ box.pref_width) :
    (bubble_widths_float d kids).1.common.min_width ≤
      (bubble_widths_float d kids).1.common.pref_width := by
  cases hbox : d.box with
  | none =>
    simp only [bubble_widths_float, bubbleNodeFinish, hbox, bubbleLoop_fst,
      bubbleLoop_snd_fst]
    exact foldl_max_min_le_pref kids 0 0 le_rfl hk
  | some box =>
    simp only [bubble_widths_float, bubbleNodeFinish, hbox, bubbleLoop_fst,
      bubbleLoop_snd_fst]
    exact add_le_add (foldl_max_min_le_pref kids 0 0 le_rfl hk) (hb box hbox)

/-- A concrete child flow with min width 3 and pref width 5. -/
def kid7 : FlowData :=
  { id := 3, position := ⟨⟨0, 0⟩, ⟨0, 0⟩⟩, min_width := 3, pref_width := 5,
    num_floats := 0, floats_in := .new 0, floats_out := .new 0 }

/-- Witness for C7 at a concrete input with one child and the box0 render
box (min 100 ≤ pref 250). -/
theorem c7_min_le_pref_witness :
    (∀ b ∈ [kid7], b.min_width ≤ b.pref_width) ∧
    (∀ box, d1.box = some box → box.min_width ≤ box.pref_width) ∧
    (bubble_widths_float d1 [kid7]).1.common.min_width ≤
      (bubble_widths_float d1 [kid7]).1.common.pref_width := by
  refine ⟨?_, ?_, ?_⟩
  · intro b hbmem
    simp only [List.mem_singleton] at hbmem
    subst hbmem; decide
  · intro box hbox
    cases hbox; decide
  · exact c7_min_le_pref d1 [kid7]
      (by intro b hbmem; simp only [List.mem_singleton] at hbmem; subst hbmem; decide)
      (by intro box hbox; cases hbox; decide)

/-- Claim C10: assign_height_float never writes the flow node's own
common.position (in particular not its size.height); it mutates only the
render box's rectangle (when a box is present), the children's origin-y,
and the node's floats_out. -/
theorem c10_height_frame (d : FloatFlowData) (kids : List FlowData) :
    (assign_height_float d kids).1.common.position = d.common.position ∧
    (assign_height_float d kids).1.common.id = d.common.id ∧
    (assign_height_float d kids).1.common.min_width = d.common.min_width ∧
    (assign_height_float d kids).1.common.pref_width = d.common.pref_width ∧
    (assign_height_float d kids).1.common.num_floats = d.common.num_floats ∧
    (assign_height_float d kids).1.common.floats_in = d.common.floats_in ∧
    (assign_height_float d kids).1.containing_width = d.containing_width ∧
    (assign_height_float d kids).1.index = d.index ∧
    (assign_height_float d kids).1.box = d.box.map (fun box =>
      { box with position :=
          { origin := { x := box.position.origin.x, y := box.model.margin.top },
            size := { width := box.position.size.width,
                      height := floatFinalHeight d kids } } }) ∧
    List.Forall₂ (fun b2 b => b2 = setKidY b2.position.origin.y b)
      (assign_height_float d kids).2 kids := by
  refine ⟨rfl, rfl, rfl, rfl, rfl, rfl, rfl, rfl, ?_, ?_⟩
  · cases hb : d.box <;> simp [assign_height_float, assignHeightData, hb]
  · exact assignYsLoop_shape kids (floatTopOffset d)

/-- A concrete child flow of height 5. -/
def kid8 : FlowData :=
  { id := 4, position := ⟨⟨0, 0⟩, ⟨0, 5⟩⟩, min_width := 0, pref_width := 0,
    num_floats := 0, floats_in := .new 0, floats_out := .new 0 }

/-- A concrete boxless float-flow node whose stale own height is 7 while its
single child has height 5. -/
def d8 : FloatFlowData :=
  { common :=
      { id := 5, position := ⟨⟨0, 0⟩, ⟨30, 7⟩⟩, min_width := 0,
        pref_width := 0, num_floats := 0,
        floats_in := .new 0, floats_out := .new 0 },
    box := none, containing_width := 30, index := none }

/-- Counterexample to claim C8 as stated: for a boxless float-flow node,
assign_height_float does not store the children's combined height into the
node's own position.size.height — here the stale height 7 survives although
the single child's height is 5. -/
theorem c8_counterexample :
    (assign_height_float d8 [kid8]).1.common.position.size.height ≠
      sumHeights [kid8] := by decide

/-- Claim C8 as amended: for a boxless float-flow node, assign_height_float
leaves the node's own position (size and origin) unchanged; the sum of the
children's heights is used only as the height of the submitted placement
request. -/
theorem c8_amended_boxless (d : FloatFlowData) (kids : List FlowData)
    (hb : d.box = none) :
    (assign_height_float d kids).1.common.position = d.common.position ∧
    (assign_height_float d kids).1.common.floats_out =
      d.common.floats_in.add_float
        { width := d.common.position.size.width,
          height := sumHeights kids,
          ceiling := 0,
          max_width := d.containing_width,
          f_type := FloatType.FloatLeft } := by
  refine ⟨rfl, ?_⟩
  have h : floatFinalHeight d kids = sumHeights kids := by
    simp [floatFinalHeight, hb, floatContentHeight, assignYsLoop_fst]
  rw [floatsOutSpec d kids, h]

/-- Witness for the amended C8 at the concrete boxless node d8. -/
theorem c8_amended_boxless_witness :
    d8.box = none ∧
    (assign_height_float d8 [kid8]).1.common.position = d8.common.position ∧
    (assign_height_float d8 [kid8]).1.common.floats_out =
      d8.common.floats_in.add_float
        { width := d8.common.position.size.width,
          height := sumHeights [kid8],
          ceiling := 0,
          max_width := d8.containing_width,
          f_type := FloatType.FloatLeft } :=
  ⟨rfl, (c8_amended_boxless d8 [kid8] rfl).1, (c8_amended_boxless d8 [kid8] rfl).2⟩

/-! ### The float-flow tree and the three passes as tree transformations

For the idempotence claim the whole pipeline must run on a tree.  A tree of
float flows is a node datum plus an ordered list of subtrees (a mutually
inductive pair, which keeps all recursions structural).  The tree versions of
the passes apply exactly the node-level logic above, accessing each child
through its root FlowData as the source's with_mut_base does, with the
traversal order of the source: bubble post-order, width pre-order (the parent
stores each child's x offset and width before the child runs), height with
the children recursed first. -/

mutual
inductive FloatFlow where
  | mk (data : FloatFlowData) (kids : FloatFlowList)
inductive FloatFlowList where
  | nil
  | cons (hd : FloatFlow) (tl : FloatFlowList)
end

/-- The node datum at the root of a tree. -/
def FloatFlow.data : FloatFlow → FloatFlowData
  | .mk d _ => d

/-- The root node's common flow data. -/
def FloatFlow.base (t : FloatFlow) : FlowData := t.data.common

/-- The root node's position rectangle. -/
def rootPosition (t : FloatFlow) : Rect := t.data.common.position

/-- The root node's origin. -/
def rootOrigin (t : FloatFlow) : Point2D := t.data.common.position.origin

/-- The root node's assigned width. -/
def rootWidth (t : FloatFlow) : Au := t.data.common.position.size.width

/-- The common flow data of each child, in order. -/
def FloatFlowList.bases : FloatFlowList → List FlowData
  | .nil => []
  | .cons (.mk cd _) rest => cd.common :: rest.bases

/-- The child loop of bubble_widths_float over already-bubbled subtrees. -/
def bubbleTreeLoop : FloatFlowList → Au → Au → Au × Au × FloatFlowList
  | .nil, mn, pf => (mn, pf, .nil)
  | .cons (.mk cd cks) rest, mn, pf =>
    let r := bubbleTreeLoop rest (max mn cd.common.min_width) (max pf cd.common.pref_width)
    (r.1, r.2.1, .cons (.mk { cd with common := bubbleChild cd.common } cks) r.2.2)

mutual
/-- bubble_widths_float driven post-order over the tree: bubble the subtrees
first, then run the node's child loop and finish. -/
def bubbleTree : FloatFlow → FloatFlow
  | .mk d ks =>
    let ks1 := bubbleTreeKids ks
    let r := bubbleTreeLoop ks1 0 0
    .mk (bubbleNodeFinish d r.1 r.2.1) r.2.2
def bubbleTreeKids : FloatFlowList → FloatFlowList
  | .nil => .nil
  | .cons k rest => .cons (bubbleTree k) (bubbleTreeKids rest)
end

/-- Store a parent-assigned x offset and width into a node datum (what the
parent's child loop of assign_widths_float writes before the child runs). -/
def setDataXW (x w : Au) (d : FloatFlowData) : FloatFlowData :=
  { d with common := setKidXW x w d.common }

mutual
/-- assign_widths_float driven pre-order: the node receives the x offset and
width its parent assigned, resolves its own box and width, and hands every
child the same x offset and resolved width before the children run. -/
def assignWidthsTreeWith (x w : Au) : FloatFlow → FloatFlow
  | .mk cd cks =>
    let d := setDataXW x w cd
    .mk (assignWidthsData d)
      (assignWidthsTreeKids (floatXOffset d) (floatResolvedWidth d) cks)
def assignWidthsTreeKids (x w : Au) : FloatFlowList → FloatFlowList
  | .nil => .nil
  | .cons k rest => .cons (assignWidthsTreeWith x w k) (assignWidthsTreeKids x w rest)
end

/-- assign_widths_float at the root of the tree: the root's
position.size.width was already set by its parent (or the driver). -/
def assignWidthsTreeRoot : FloatFlow → FloatFlow
  | .mk d ks =>
    .mk (assignWidthsData d)
      (assignWidthsTreeKids (floatXOffset d) (floatResolvedWidth d) ks)

/-- The stacking loop of assign_height_float over the tree children. -/
def assignYsTreeLoop : FloatFlowList → Au → Au × FloatFlowList
  | .nil, cur => (cur, .nil)
  | .cons (.mk cd cks) rest, cur =>
    let r := assignYsTreeLoop rest (cur + cd.common.position.size.height)
    (r.1, .cons (.mk { cd with common := setKidY cur cd.common } cks) r.2)

mutual
/-- assign_height_float over the tree: recurse into the children first, then
stack them and finish the node. -/
def assignHeightTree : FloatFlow → FloatFlow
  | .mk d ks =>
    let ks1 := assignHeightTreeKids ks
    .mk (assignHeightData d ks1.bases) (assignYsTreeLoop ks1 (floatTopOffset d)).2
def assignHeightTreeKids : FloatFlowList → FloatFlowList
  | .nil => .nil
  | .cons k rest => .cons (assignHeightTree k) (assignHeightTreeKids rest)
end

/-- The parent (or driver) assigns the containing width to the root before
width assignment (position.size.width is set by the parent). -/
def setRootWidth (W : Au) : FloatFlow → FloatFlow
  | .mk d ks =>
    .mk { d with common := { d.common with position :=
      { d.common.position with size :=
        { d.common.position.size with width := W } } } } ks

/-- One full layout cycle on a float-flow tree whose containing block assigns
width W: bubble (post-order), assign widths (pre-order), assign heights
(post-order). -/
def runLayout (W : Au) (t : FloatFlow) : FloatFlow :=
  assignHeightTree (assignWidthsTreeRoot (bubbleTree (setRootWidth W t)))

/-! ### Induction helpers for the mutual tree -/

theorem FloatFlow.inductionPair (P : FloatFlow → Prop) (Q : FloatFlowList → Prop)
    (h1 : ∀ d ks, Q ks → P (.mk d ks)) (h2 : Q .nil)
    (h3 : ∀ k ks, P k → Q ks → Q (.cons k ks)) :
    (∀ t, P t) ∧ (∀ ks, Q ks) :=
  ⟨fun t => FloatFlow.rec h1 h2 h3 t, fun ks => FloatFlowList.rec h1 h2 h3 ks⟩

theorem FloatFlowList.inductionOn (Q : FloatFlowList → Prop) (h2 : Q .nil)
    (h3 : ∀ k ks, Q ks → Q (.cons k ks)) : ∀ ks, Q ks :=
  (FloatFlow.inductionPair (fun _ => True) Q (fun _ _ _ => trivial) h2
    (fun k ks _ => h3 k ks)).2

/-! ### Equality of the layout inputs of two trees

The positions and sizes produced by a full layout cycle depend only on the
tree shape, each node's style and intrinsic box widths, and each node's
(never rewritten) position.size.height; PresEq relates two trees that agree
on exactly those inputs. -/

/-- Input agreement of the optional render boxes: same presence, same style
and same intrinsic widths. -/
def BoxPres : Option RenderBox → Option RenderBox → Prop
  | none, none => True
  | some a, some b => a.style = b.style ∧ a.min_width = b.min_width ∧
      a.pref_width = b.pref_width
  | _, _ => False

mutual
def PresEqT : FloatFlow → FloatFlow → Prop
  | .mk d ks, .mk e ls =>
    BoxPres d.box e.box ∧
    d.common.position.size.height = e.common.position.size.height ∧
    PresEqL ks ls
def PresEqL : FloatFlowList → FloatFlowList → Prop
  | .nil, .nil => True
  | .cons a as, .cons b bs => PresEqT a b ∧ PresEqL as bs
  | _, _ => False
end

theorem boxPres_refl (o : Option RenderBox) : BoxPres o o := by
  cases o <;> simp [BoxPres]

theorem boxPres_symm {o p : Option RenderBox} (h : BoxPres o p) : BoxPres p o := by
  cases o <;> cases p <;> simp_all [BoxPres]

theorem boxPres_trans {o p q : Option RenderBox} (h1 : BoxPres o p)
    (h2 : BoxPres p q) : BoxPres o q := by
  cases o <;> cases p <;> cases q <;> simp_all [BoxPres]

theorem presEq_refl :
    (∀ t, PresEqT t t) ∧ (∀ ks, PresEqL ks ks) := by
  refine FloatFlow.inductionPair (fun t => PresEqT t t) (fun ks => PresEqL ks ks)
    ?_ ?_ ?_
  · intro d ks h
    exact ⟨boxPres_refl _, rfl, h⟩
  · simp [PresEqL]
  · intro k ks h1 h2
    exact ⟨h1, h2⟩

theorem presEq_symm :
    (∀ t u, PresEqT t u → PresEqT u t) ∧
    (∀ ks ls, PresEqL ks ls → PresEqL ls ks) := by
  refine FloatFlow.inductionPair
    (fun t => ∀ u, PresEqT t u → PresEqT u t)
    (fun ks => ∀ ls, PresEqL ks ls → PresEqL ls ks) ?_ ?_ ?_
  · intro d ks ih u h
    cases u with
    | mk e ls =>
      obtain ⟨h1, h2, h3⟩ := h
      exact ⟨boxPres_symm h1, h2.symm, ih ls h3⟩
  · intro ls h
    cases ls with
    | nil => trivial
    | cons b bs => exact absurd h (by simp [PresEqL])
  · intro k ks ih1 ih2 ls h
    cases ls with
    | nil => exact absurd h (by simp [PresEqL])
    | cons b bs => exact ⟨ih1 b h.1, ih2 bs h.2⟩

theorem presEq_trans :
    (∀ t u v, PresEqT t u → PresEqT u v → PresEqT t v) ∧
    (∀ ks ls ms, PresEqL ks ls → PresEqL ls ms → PresEqL ks ms) := by
  refine FloatFlow.inductionPair
    (fun t => ∀ u v, PresEqT t u → PresEqT u v → PresEqT t v)
    (fun ks => ∀ ls ms, PresEqL ks ls → PresEqL ls ms → PresEqL ks ms) ?_ ?_ ?_
  · intro d ks ih u v h1 h2
    cases u with
    | mk e ls =>
      cases v with
      | mk f ms =>
        obtain ⟨ha, hb, hc⟩ := h1
        obtain ⟨hd, he, hf⟩ := h2
        exact ⟨boxPres_trans ha hd, hb.trans he, ih ls ms hc hf⟩
  · intro ls ms h1 h2
    cases ls with
    | nil => exact h2
    | cons b bs => exact absurd h1 (by simp [PresEqL])
  · intro k ks ih1 ih2 ls ms h1 h2
    cases ls with
    | nil => exact absurd h1 (by simp [PresEqL])
    | cons b bs =>
      cases ms with
      | nil => exact absurd h2 (by simp [PresEqL])
      | cons c cs => exact ⟨ih1 b c h1.1 h2.1, ih2 bs cs h1.2 h2.2⟩

/-! ### Frame lemmas: each pass preserves the layout inputs -/

theorem bubbleNodeFinish_box_pres (d : FloatFlowData) (mn pf : Au) :
    BoxPres (bubbleNodeFinish d mn pf).box d.box := by
  cases hb : d.box <;> simp [bubbleNodeFinish, hb, BoxPres]

theorem bubbleNodeFinish_position (d : FloatFlowData) (mn pf : Au) :
    (bubbleNodeFinish d mn pf).common.position = d.common.position := by
  cases hb : d.box <;> simp [bubbleNodeFinish, hb]

theorem assignWidthsData_box_pres (d : FloatFlowData) :
    BoxPres (assignWidthsData d).box d.box := by
  cases hb : d.box <;> simp [assignWidthsData, hb, BoxPres]

theorem assignWidthsData_origin (d : FloatFlowData) :
    (assignWidthsData d).common.position.origin = d.common.position.origin := by
  simp [assignWidthsData]

theorem assignWidthsData_height (d : FloatFlowData) :
    (assignWidthsData d).common.position.size.height =
      d.common.position.size.height := by
  simp [assignWidthsData]

theorem assignHeightData_box_pres (d : FloatFlowData) (bs : List FlowData) :
    BoxPres (assignHeightData d bs).box d.box := by
  cases hb : d.box <;> simp [assignHeightData, hb, BoxPres]

theorem assignHeightData_position (d : FloatFlowData) (bs : List FlowData) :
    (assignHeightData d bs).common.position = d.common.position := rfl

theorem presEq_setRootWidth (W : Au) (t : FloatFlow) :
    PresEqT (setRootWidth W t) t := by
  cases t with
  | mk d ks => exact ⟨boxPres_refl _, rfl, presEq_refl.2 ks⟩

theorem presEq_bubbleTreeLoop (ks : FloatFlowList) :
    ∀ mn pf, PresEqL (bubbleTreeLoop ks mn pf).2.2 ks := by
  refine FloatFlowList.inductionOn
    (fun ks => ∀ mn pf, PresEqL (bubbleTreeLoop ks mn pf).2.2 ks) ?_ ?_ ks
  · intro mn pf
    simp [bubbleTreeLoop, PresEqL]
  · intro k rest ih mn pf
    cases k with
    | mk cd cks =>
      exact ⟨⟨boxPres_refl _, rfl, presEq_refl.2 cks⟩, ih _ _⟩

theorem presEq_bubble :
    (∀ t, PresEqT (bubbleTree t) t) ∧
    (∀ ks, PresEqL (bubbleTreeKids ks) ks) := by
  refine FloatFlow.inductionPair (fun t => PresEqT (bubbleTree t) t)
    (fun ks => PresEqL (bubbleTreeKids ks) ks) ?_ ?_ ?_
  · intro d ks ih
    refine ⟨bubbleNodeFinish_box_pres _ _ _, ?_, ?_⟩
    · rw [bubbleNodeFinish_position]
    · exact presEq_trans.2 _ _ _ (presEq_bubbleTreeLoop _ _ _) ih
  · simp [bubbleTreeKids, PresEqL]
  · intro k ks ih1 ih2
    exact ⟨ih1, ih2⟩

theorem presEq_width_pair :
    (∀ t, ∀ x w, PresEqT (assignWidthsTreeWith x w t) t) ∧
    (∀ ks, ∀ x w, PresEqL (assignWidthsTreeKids x w ks) ks) := by
  refine FloatFlow.inductionPair
    (fun t => ∀ x w, PresEqT (assignWidthsTreeWith x w t) t)
    (fun ks => ∀ x w, PresEqL (assignWidthsTreeKids x w ks) ks) ?_ ?_ ?_
  · intro cd cks ih x w
    refine ⟨?_, ?_, ih _ _⟩
    · exact assignWidthsData_box_pres _
    · rw [assignWidthsData_height]; rfl
  · intro x w
    simp [assignWidthsTreeKids, PresEqL]
  · intro k ks ih1 ih2 x w
    exact ⟨ih1 x w, ih2 x w⟩

theorem presEq_widthRoot (t : FloatFlow) :
    PresEqT (assignWidthsTreeRoot t) t := by
  cases t with
  | mk d ks =>
    refine ⟨assignWidthsData_box_pres _, ?_, presEq_width_pair.2 ks _ _⟩
    rw [assignWidthsData_height]

theorem presEq_assignYsTreeLoop (ks : FloatFlowList) :
    ∀ cur, PresEqL (assignYsTreeLoop ks cur).2 ks := by
  refine FloatFlowList.inductionOn
    (fun ks => ∀ cur, PresEqL (assignYsTreeLoop ks cur).2 ks) ?_ ?_ ks
  · intro cur
    simp [assignYsTreeLoop, PresEqL]
  · intro k rest ih cur
    cases k with
    | mk cd cks =>
      exact ⟨⟨boxPres_refl _, rfl, presEq_refl.2 cks⟩, ih _⟩

theorem presEq_height :
    (∀ t, PresEqT (assignHeightTree t) t) ∧
    (∀ ks, PresEqL (assignHeightTreeKids ks) ks) := by
  refine FloatFlow.inductionPair (fun t => PresEqT (assignHeightTree t) t)
    (fun ks => PresEqL (assignHeightTreeKids ks) ks) ?_ ?_ ?_
  · intro d ks ih
    refine ⟨assignHeightData_box_pres _ _, ?_, ?_⟩
    · rw [assignHeightData_position]
    · exact presEq_trans.2 _ _ _ (presEq_assignYsTreeLoop _ _) ih
  · simp [assignHeightTreeKids, PresEqL]
  · intro k ks ih1 ih2
    exact ⟨ih1, ih2⟩

theorem presEq_run (W : Au) (t : FloatFlow) : PresEqT (runLayout W t) t := by
  unfold runLayout
  refine presEq_trans.1 _ _ _ (presEq_height.1 _) ?_
  refine presEq_trans.1 _ _ _ (presEq_widthRoot _) ?_
  exact presEq_trans.1 _ _ _ (presEq_bubble.1 _) (presEq_setRootWidth W t)

/-! ### Root accessor frames -/

theorem rootOrigin_setRootWidth (W : Au) (t : FloatFlow) :
    rootOrigin (setRootWidth W t) = rootOrigin t := by
  cases t with
  | mk d ks => rfl

theorem rootWidth_setRootWidth (W : Au) (t : FloatFlow) :
    rootWidth (setRootWidth W t) = W := by
  cases t with
  | mk d ks => rfl

theorem rootPosition_bubble (t : FloatFlow) :
    rootPosition (bubbleTree t) = rootPosition t := by
  cases t with
  | mk d ks =>
    simp only [bubbleTree, rootPosition, FloatFlow.data]
    exact bubbleNodeFinish_position _ _ _

theorem rootWidth_bubble (t : FloatFlow) : rootWidth (bubbleTree t) = rootWidth t := by
  have h := rootPosition_bubble t
  simp only [rootPosition] at h
  simp only [rootWidth, h]

theorem rootOrigin_widthRoot (t : FloatFlow) :
    rootOrigin (assignWidthsTreeRoot t) = rootOrigin t := by
  cases t with
  | mk d ks =>
    simp only [assignWidthsTreeRoot, rootOrigin, FloatFlow.data]
    exact assignWidthsData_origin _

theorem rootPosition_height (t : FloatFlow) :
    rootPosition (assignHeightTree t) = rootPosition t := by
  cases t with
  | mk d ks =>
    simp only [assignHeightTree, rootPosition, FloatFlow.data]
    exact assignHeightData_position _ _

theorem rootOrigin_run (W : Au) (t : FloatFlow) :
    rootOrigin (runLayout W t) = rootOrigin t := by
  unfold runLayout
  have h1 := rootPosition_height (assignWidthsTreeRoot (bubbleTree (setRootWidth W t)))
  have h2 := rootOrigin_widthRoot (bubbleTree (setRootWidth W t))
  have h3 := rootPosition_bubble (setRootWidth W t)
  have h4 := rootOrigin_setRootWidth W t
  simp only [rootOrigin, rootPosition] at h1 h2 h3 h4 ⊢
  rw [h1, h2, h3, h4]

/-! ### Componentwise equality helpers for the geometry structures -/

theorem pointEqOfParts {p q : Point2D} (h1 : p.x = q.x) (h2 : p.y = q.y) :
    p = q := by
  cases p; cases q; simp_all

theorem sizeEqOfParts {p q : Size2D} (h1 : p.width = q.width)
    (h2 : p.height = q.height) : p = q := by
  cases p; cases q; simp_all

theorem rectEqOfParts {p q : Rect} (h1 : p.origin = q.origin)
    (h2 : p.size = q.size) : p = q := by
  cases p; cases q; simp_all

/-! ### Agreement relations after each pass

EqB relates two trees that agree on everything the width pass reads
(inputs, bubbled min/pref widths, computed borders); EqW additionally on
everything the height pass reads (assigned widths, resolved box models,
children's x offsets); PosEqX is agreement of all positions and sizes except
each root's own origin (which only the parent, or the driver, writes) and
PosEq is full agreement of every node's position rectangle. -/

/-- Box agreement after bubbling: input agreement plus equal computed
borders. -/
def BoxPresB : Option RenderBox → Option RenderBox → Prop
  | none, none => True
  | some a, some b => a.style = b.style ∧ a.min_width = b.min_width ∧
      a.pref_width = b.pref_width ∧ a.model.border = b.model.border
  | _, _ => False

mutual
def EqBT : FloatFlow → FloatFlow → Prop
  | .mk d ks, .mk e ls =>
    BoxPresB d.box e.box ∧
    d.common.position.size.height = e.common.position.size.height ∧
    d.common.min_width = e.common.min_width ∧
    d.common.pref_width = e.common.pref_width ∧
    EqBL ks ls
def EqBL : FloatFlowList → FloatFlowList → Prop
  | .nil, .nil => True
  | .cons a as, .cons b bs => EqBT a b ∧ EqBL as bs
  | _, _ => False
end

/-- Box agreement after width assignment: same style and fully resolved
equal box models. -/
def BoxPresW : Option RenderBox → Option RenderBox → Prop
  | none, none => True
  | some a, some b => a.style = b.style ∧ a.model = b.model
  | _, _ => False

mutual
def EqWT : FloatFlow → FloatFlow → Prop
  | .mk d ks, .mk e ls =>
    BoxPresW d.box e.box ∧
    d.common.position.size.height = e.common.position.size.height ∧
    d.common.position.size.width = e.common.position.size.width ∧
    EqWL ks ls
def EqWL : FloatFlowList → FloatFlowList → Prop
  | .nil, .nil => True
  | .cons a as, .cons b bs =>
    EqWT a b ∧ (rootOrigin a).x = (rootOrigin b).x ∧ EqWL as bs
  | _, _ => False
end

mutual
def PosEqXT : FloatFlow → FloatFlow → Prop
  | .mk d ks, .mk e ls =>
    d.common.position.size = e.common.position.size ∧ PosEqXL ks ls
def PosEqXL : FloatFlowList → FloatFlowList → Prop
  | .nil, .nil => True
  | .cons a as, .cons b bs =>
    PosEqXT a b ∧ rootOrigin a = rootOrigin b ∧ PosEqXL as bs
  | _, _ => False
end

mutual
def PosEqT : FloatFlow → FloatFlow → Prop
  | .mk d ks, .mk e ls =>
    d.common.position = e.common.position ∧ PosEqL ks ls
def PosEqL : FloatFlowList → FloatFlowList → Prop
  | .nil, .nil => True
  | .cons a as, .cons b bs => PosEqT a b ∧ PosEqL as bs
  | _, _ => False
end

/-- Agreement of two child lists after the height pass has run on each child
but before the parent's stacking loop: positions and sizes except each
child root's origin-y (the loop is about to write it), with origin-x already
equal. -/
def HKRel : FloatFlowList → FloatFlowList → Prop
  | .nil, .nil => True
  | .cons a as, .cons b bs =>
    PosEqXT a b ∧ (rootOrigin a).x = (rootOrigin b).x ∧ HKRel as bs
  | _, _ => False

theorem posEqX_to_posEq :
    (∀ t u, PosEqXT t u → rootOrigin t = rootOrigin u → PosEqT t u) ∧
    (∀ ks ls, PosEqXL ks ls → PosEqL ks ls) := by
  refine FloatFlow.inductionPair
    (fun t => ∀ u, PosEqXT t u → rootOrigin t = rootOrigin u → PosEqT t u)
    (fun ks => ∀ ls, PosEqXL ks ls → PosEqL ks ls) ?_ ?_ ?_
  · intro d ks ih u h ho
    cases u with
    | mk e ls =>
      obtain ⟨h1, h2⟩ := h
      exact ⟨rectEqOfParts ho h1, ih ls h2⟩
  · intro ls h
    cases ls with
    | nil => trivial
    | cons b bs => exact absurd h (by simp [PosEqXL])
  · intro k ks ih1 ih2 ls h
    cases ls with
    | nil => exact absurd h (by simp [PosEqXL])
    | cons b bs =>
      obtain ⟨h1, h2, h3⟩ := h
      exact ⟨ih1 b h1 h2, ih2 bs h3⟩

/-! ### Congruence of the bubble pass -/

theorem boxMinWidthCongr {d e : FloatFlowData} (h : BoxPres d.box e.box) :
    boxMinWidth d = boxMinWidth e := by
  cases hd : d.box <;> cases he : e.box <;>
    simp_all [BoxPres, boxMinWidth, hd, he]

theorem boxPrefWidthCongr {d e : FloatFlowData} (h : BoxPres d.box e.box) :
    boxPrefWidth d = boxPrefWidth e := by
  cases hd : d.box <;> cases he : e.box <;>
    simp_all [BoxPres, boxPrefWidth, hd, he]

theorem bubbleNodeFinish_min (d : FloatFlowData) (mn pf : Au) :
    (bubbleNodeFinish d mn pf).common.min_width = mn + boxMinWidth d := by
  cases hb : d.box <;> simp [bubbleNodeFinish, hb, boxMinWidth]

theorem bubbleNodeFinish_pref (d : FloatFlowData) (mn pf : Au) :
    (bubbleNodeFinish d mn pf).common.pref_width = pf + boxPrefWidth d := by
  cases hb : d.box <;> simp [bubbleNodeFinish, hb, boxPrefWidth]

theorem bubbleNodeFinish_box_congr {d e : FloatFlowData}
    (h : BoxPres d.box e.box) (mn pf mn2 pf2 : Au) :
    BoxPresB (bubbleNodeFinish d mn pf).box (bubbleNodeFinish e mn2 pf2).box := by
  cases hd : d.box <;> cases he : e.box <;>
    simp_all [BoxPres, BoxPresB, bubbleNodeFinish, hd, he]

theorem bubbleTreeLoopCongr (ks : FloatFlowList) :
    ∀ ls, EqBL ks ls → ∀ mn pf,
      (bubbleTreeLoop ks mn pf).1 = (bubbleTreeLoop ls mn pf).1 ∧
      (bubbleTreeLoop ks mn pf).2.1 = (bubbleTreeLoop ls mn pf).2.1 ∧
      EqBL (bubbleTreeLoop ks mn pf).2.2 (bubbleTreeLoop ls mn pf).2.2 := by
  refine FloatFlowList.inductionOn (fun ks => ∀ ls, EqBL ks ls → ∀ mn pf,
    (bubbleTreeLoop ks mn pf).1 = (bubbleTreeLoop ls mn pf).1 ∧
    (bubbleTreeLoop ks mn pf).2.1 = (bubbleTreeLoop ls mn pf).2.1 ∧
    EqBL (bubbleTreeLoop ks mn pf).2.2 (bubbleTreeLoop ls mn pf).2.2) ?_ ?_ ks
  · intro ls h mn pf
    cases ls with
    | nil => exact ⟨rfl, rfl, trivial⟩
    | cons b bs => exact absurd h (by simp [EqBL])
  · intro k rest ih ls h mn pf
    cases ls with
    | nil => exact absurd h (by simp [EqBL])
    | cons b bs =>
      cases k with
      | mk cd cks =>
        cases b with
        | mk ed eks =>
          obtain ⟨hT, hL⟩ := h
          obtain ⟨hbox, hh, hmn, hpf, hk⟩ := hT
          obtain ⟨e1, e2, e3⟩ :=
            ih bs hL (max mn cd.common.min_width) (max pf cd.common.pref_width)
          have f1 : (bubbleTreeLoop bs (max mn cd.common.min_width)
              (max pf cd.common.pref_width)).1 =
              (bubbleTreeLoop bs (max mn ed.common.min_width)
              (max pf ed.common.pref_width)).1 := by rw [hmn, hpf]
          have f2 : (bubbleTreeLoop bs (max mn cd.common.min_width)
              (max pf cd.common.pref_width)).2.1 =
              (bubbleTreeLoop bs (max mn ed.common.min_width)
              (max pf ed.common.pref_width)).2.1 := by rw [hmn, hpf]
          have f3 : (bubbleTreeLoop bs (max mn cd.common.min_width)
              (max pf cd.common.pref_width)).2.2 =
              (bubbleTreeLoop bs (max mn ed.common.min_width)
              (max pf ed.common.pref_width)).2.2 := by rw [hmn, hpf]
          exact ⟨e1.trans f1, e2.trans f2, ⟨⟨hbox, hh, hmn, hpf, hk⟩, f3 ▸ e3⟩⟩

theorem bubbleCongr :
    (∀ t u, PresEqT t u → EqBT (bubbleTree t) (bubbleTree u)) ∧
    (∀ ks ls, PresEqL ks ls → EqBL (bubbleTreeKids ks) (bubbleTreeKids ls)) := by
  refine FloatFlow.inductionPair
    (fun t => ∀ u, PresEqT t u → EqBT (bubbleTree t) (bubbleTree u))
    (fun ks => ∀ ls, PresEqL ks ls → EqBL (bubbleTreeKids ks) (bubbleTreeKids ls))
    ?_ ?_ ?_
  · intro d ks ih u h
    cases u with
    | mk e ls =>
      obtain ⟨hbox, hh, hkids⟩ := h
      have hk1 := ih ls hkids
      obtain ⟨e1, e2, e3⟩ := bubbleTreeLoopCongr _ _ hk1 0 0
      show EqBT
        (.mk (bubbleNodeFinish d (bubbleTreeLoop (bubbleTreeKids ks) 0 0).1
          (bubbleTreeLoop (bubbleTreeKids ks) 0 0).2.1)
          (bubbleTreeLoop (bubbleTreeKids ks) 0 0).2.2)
        (.mk (bubbleNodeFinish e (bubbleTreeLoop (bubbleTreeKids ls) 0 0).1
          (bubbleTreeLoop (bubbleTreeKids ls) 0 0).2.1)
          (bubbleTreeLoop (bubbleTreeKids ls) 0 0).2.2)
      refine ⟨bubbleNodeFinish_box_congr hbox _ _ _ _, ?_, ?_, ?_, e3⟩
      · have p1 := bubbleNodeFinish_position d (bubbleTreeLoop (bubbleTreeKids ks) 0 0).1
          (bubbleTreeLoop (bubbleTreeKids ks) 0 0).2.1
        have p2 := bubbleNodeFinish_position e (bubbleTreeLoop (bubbleTreeKids ls) 0 0).1
          (bubbleTreeLoop (bubbleTreeKids ls) 0 0).2.1
        rw [p1, p2]
        exact hh
      · rw [bubbleNodeFinish_min, bubbleNodeFinish_min, e1, boxMinWidthCongr hbox]
      · rw [bubbleNodeFinish_pref, bubbleNodeFinish_pref, e2, boxPrefWidthCongr hbox]
  · intro ls h
    cases ls with
    | nil => trivial
    | cons b bs => exact absurd h (by simp [PresEqL])
  · intro k ks ih1 ih2 ls h
    cases ls with
    | nil => exact absurd h (by simp [PresEqL])
    | cons b bs => exact ⟨ih1 b h.1, ih2 bs h.2⟩

/-! ### Congruence of the width pass -/

theorem floatResolvedWidthCongr (d e : FloatFlowData)
    (hbox : BoxPresB d.box e.box)
    (hw : d.common.position.size.width = e.common.position.size.width)
    (hmn : d.common.min_width = e.common.min_width)
    (hpf : d.common.pref_width = e.common.pref_width) :
    floatResolvedWidth d = floatResolvedWidth e := by
  cases hd : d.box <;> cases he : e.box <;> rw [hd, he] at hbox
  · simp [floatResolvedWidth, hd, he, hw]
  · simp [BoxPresB] at hbox
  · simp [BoxPresB] at hbox
  · obtain ⟨hs, h1, h2, h3⟩ := hbox
    simp [floatResolvedWidth, hd, he, floatShrinkToFit, hw, hmn, hpf, hs]

theorem floatNewModelCongr (a b : RenderBox) (hs : a.style = b.style)
    (hbord : a.model.border = b.model.border) (w : Au) :
    floatNewModel a w = floatNewModel b w := by
  simp [floatNewModel, hs, hbord]

theorem floatXOffsetCongr (d e : FloatFlowData)
    (hbox : BoxPresB d.box e.box)
    (hw : d.common.position.size.width = e.common.position.size.width) :
    floatXOffset d = floatXOffset e := by
  cases hd : d.box <;> cases he : e.box <;> rw [hd, he] at hbox
  · simp [floatXOffset, hd, he]
  · simp [BoxPresB] at hbox
  · simp [BoxPresB] at hbox
  · obtain ⟨hs, h1, h2, h3⟩ := hbox
    simp only [floatXOffset, hd, he]
    rw [floatNewModelCongr _ _ hs h3, hw]

theorem assignWidthsData_width (d : FloatFlowData) :
    (assignWidthsData d).common.position.size.width = floatResolvedWidth d := by
  simp [assignWidthsData]

theorem assignWidthsData_box_congr (d e : FloatFlowData)
    (hbox : BoxPresB d.box e.box)
    (hw : d.common.position.size.width = e.common.position.size.width)
    (hmn : d.common.min_width = e.common.min_width)
    (hpf : d.common.pref_width = e.common.pref_width) :
    BoxPresW (assignWidthsData d).box (assignWidthsData e).box := by
  have hrw := floatResolvedWidthCongr d e hbox hw hmn hpf
  cases hd : d.box <;> cases he : e.box <;> rw [hd, he] at hbox
  · simp [assignWidthsData, hd, he, BoxPresW]
  · simp [BoxPresB] at hbox
  · simp [BoxPresB] at hbox
  · obtain ⟨hs, h1, h2, h3⟩ := hbox
    have hm := floatNewModelCongr _ _ hs h3 d.common.position.size.width
    simp only [assignWidthsData, hd, he, BoxPresW]
    refine ⟨hs, ?_⟩
    rw [hm, hw]

theorem rootOriginX_widthWith (x w : Au) (k : FloatFlow) :
    (rootOrigin (assignWidthsTreeWith x w k)).x = x := by
  cases k with
  | mk cd cks =>
    show ((assignWidthsData (setDataXW x w cd)).common.position.origin).x = x
    rw [assignWidthsData_origin]
    rfl

theorem widthCongr :
    (∀ t u, ∀ x w, EqBT t u →
      EqWT (assignWidthsTreeWith x w t) (assignWidthsTreeWith x w u)) ∧
    (∀ ks ls, ∀ x w, EqBL ks ls →
      EqWL (assignWidthsTreeKids x w ks) (assignWidthsTreeKids x w ls)) := by
  refine FloatFlow.inductionPair
    (fun t => ∀ u x w, EqBT t u →
      EqWT (assignWidthsTreeWith x w t) (assignWidthsTreeWith x w u))
    (fun ks => ∀ ls x w, EqBL ks ls →
      EqWL (assignWidthsTreeKids x w ks) (assignWidthsTreeKids x w ls)) ?_ ?_ ?_
  · intro cd cks ih u x w h
    cases u with
    | mk ed eks =>
      obtain ⟨hbox, hh, hmn, hpf, hk⟩ := h
      have hboxd : BoxPresB (setDataXW x w cd).box (setDataXW x w ed).box := hbox
      have hwd : (setDataXW x w cd).common.position.size.width =
          (setDataXW x w ed).common.position.size.width := rfl
      have hrw : floatResolvedWidth (setDataXW x w cd) =
          floatResolvedWidth (setDataXW x w ed) :=
        floatResolvedWidthCongr _ _ hboxd hwd hmn hpf
      have hxo : floatXOffset (setDataXW x w cd) = floatXOffset (setDataXW x w ed) :=
        floatXOffsetCongr _ _ hboxd hwd
      show EqWT
        (.mk (assignWidthsData (setDataXW x w cd))
          (assignWidthsTreeKids (floatXOffset (setDataXW x w cd))
            (floatResolvedWidth (setDataXW x w cd)) cks))
        (.mk (assignWidthsData (setDataXW x w ed))
          (assignWidthsTreeKids (floatXOffset (setDataXW x w ed))
            (floatResolvedWidth (setDataXW x w ed)) eks))
      refine ⟨assignWidthsData_box_congr _ _ hboxd hwd hmn hpf, ?_, ?_, ?_⟩
      · rw [assignWidthsData_height, assignWidthsData_height]
        exact hh
      · rw [assignWidthsData_width, assignWidthsData_width]
        exact hrw
      · rw [← hxo, ← hrw]
        exact ih eks _ _ hk
  · intro ls x w h
    cases ls with
    | nil => trivial
    | cons b bs => exact absurd h (by simp [EqBL])
  · intro k ks ih1 ih2 ls x w h
    cases ls with
    | nil => exact absurd h (by simp [EqBL])
    | cons b bs =>
      refine ⟨ih1 b x w h.1, ?_, ih2 bs x w h.2⟩
      rw [rootOriginX_widthWith, rootOriginX_widthWith]

theorem widthCongrRoot (t u : FloatFlow) (h : EqBT t u)
    (hw : rootWidth t = rootWidth u) :
    EqWT (assignWidthsTreeRoot t) (assignWidthsTreeRoot u) := by
  cases t with
  | mk d ks =>
    cases u with
    | mk e ls =>
      obtain ⟨hbox, hh, hmn, hpf, hk⟩ := h
      have hw2 : d.common.position.size.width = e.common.position.size.width := hw
      have hrw : floatResolvedWidth d = floatResolvedWidth e :=
        floatResolvedWidthCongr _ _ hbox hw2 hmn hpf
      have hxo : floatXOffset d = floatXOffset e :=
        floatXOffsetCongr _ _ hbox hw2
      show EqWT
        (.mk (assignWidthsData d)
          (assignWidthsTreeKids (floatXOffset d) (floatResolvedWidth d) ks))
        (.mk (assignWidthsData e)
          (assignWidthsTreeKids (floatXOffset e) (floatResolvedWidth e) ls))
      refine ⟨assignWidthsData_box_congr _ _ hbox hw2 hmn hpf, ?_, ?_, ?_⟩
      · rw [assignWidthsData_height, assignWidthsData_height]
        exact hh
      · rw [assignWidthsData_width, assignWidthsData_width]
        exact hrw
      · rw [← hxo, ← hrw]
        exact widthCongr.2 ks ls _ _ hk

/-! ### Congruence of the height pass -/

theorem floatTopOffsetCongr (d e : FloatFlowData)
    (hbox : BoxPresW d.box e.box) : floatTopOffset d = floatTopOffset e := by
  cases hd : d.box <;> cases he : e.box <;> rw [hd, he] at hbox
  · simp [floatTopOffset, hd, he]
  · simp [BoxPresW] at hbox
  · simp [BoxPresW] at hbox
  · obtain ⟨hs, hm⟩ := hbox
    simp [floatTopOffset, hd, he, hm]

theorem rootOriginX_height (k : FloatFlow) :
    (rootOrigin (assignHeightTree k)).x = (rootOrigin k).x := by
  have h := rootPosition_height k
  simp only [rootOrigin, rootPosition] at h ⊢
  rw [h]

theorem assignYsTreeLoopCongr (ks : FloatFlowList) :
    ∀ ls, HKRel ks ls → ∀ cur,
      (assignYsTreeLoop ks cur).1 = (assignYsTreeLoop ls cur).1 ∧
      PosEqXL (assignYsTreeLoop ks cur).2 (assignYsTreeLoop ls cur).2 := by
  refine FloatFlowList.inductionOn (fun ks => ∀ ls, HKRel ks ls → ∀ cur,
    (assignYsTreeLoop ks cur).1 = (assignYsTreeLoop ls cur).1 ∧
    PosEqXL (assignYsTreeLoop ks cur).2 (assignYsTreeLoop ls cur).2) ?_ ?_ ks
  · intro ls h cur
    cases ls with
    | nil => exact ⟨rfl, trivial⟩
    | cons b bs => exact absurd h (by simp [HKRel])
  · intro k rest ih ls h cur
    cases ls with
    | nil => exact absurd h (by simp [HKRel])
    | cons b bs =>
      cases k with
      | mk cd cks =>
        cases b with
        | mk ed eks =>
          obtain ⟨hXT, hx, hrest⟩ := h
          obtain ⟨hsz, hkk⟩ := hXT
          have hh : cd.common.position.size.height = ed.common.position.size.height :=
            congrArg Size2D.height hsz
          obtain ⟨e1, e2⟩ := ih bs hrest (cur + cd.common.position.size.height)
          have f1 : (assignYsTreeLoop bs (cur + cd.common.position.size.height)).1 =
              (assignYsTreeLoop bs (cur + ed.common.position.size.height)).1 := by
            rw [hh]
          have f2 : (assignYsTreeLoop bs (cur + cd.common.position.size.height)).2 =
              (assignYsTreeLoop bs (cur + ed.common.position.size.height)).2 := by
            rw [hh]
          refine ⟨e1.trans f1, ⟨⟨hsz, hkk⟩, pointEqOfParts hx rfl, f2 ▸ e2⟩⟩

theorem heightCongr :
    (∀ t u, EqWT t u → PosEqXT (assignHeightTree t) (assignHeightTree u)) ∧
    (∀ ks ls, EqWL ks ls →
      HKRel (assignHeightTreeKids ks) (assignHeightTreeKids ls)) := by
  refine FloatFlow.inductionPair
    (fun t => ∀ u, EqWT t u → PosEqXT (assignHeightTree t) (assignHeightTree u))
    (fun ks => ∀ ls, EqWL ks ls →
      HKRel (assignHeightTreeKids ks) (assignHeightTreeKids ls)) ?_ ?_ ?_
  · intro d ks ih u h
    cases u with
    | mk e ls =>
      obtain ⟨hbox, hh, hw, hkids⟩ := h
      have hkrel := ih ls hkids
      have hto := floatTopOffsetCongr d e hbox
      obtain ⟨l1, l2⟩ := assignYsTreeLoopCongr _ _ hkrel (floatTopOffset d)
      show PosEqXT
        (.mk (assignHeightData d (assignHeightTreeKids ks).bases)
          (assignYsTreeLoop (assignHeightTreeKids ks) (floatTopOffset d)).2)
        (.mk (assignHeightData e (assignHeightTreeKids ls).bases)
          (assignYsTreeLoop (assignHeightTreeKids ls) (floatTopOffset e)).2)
      refine ⟨sizeEqOfParts hw hh, ?_⟩
      rw [← hto]
      exact l2
  · intro ls h
    cases ls with
    | nil => trivial
    | cons b bs => exact absurd h (by simp [EqWL])
  · intro k ks ih1 ih2 ls h
    cases ls with
    | nil => exact absurd h (by simp [EqWL])
    | cons b bs =>
      obtain ⟨hT, hx, hL⟩ := h
      refine ⟨ih1 b hT, ?_, ih2 bs hL⟩
      rw [rootOriginX_height, rootOriginX_height]
      exact hx

/-! ### Idempotence of the full layout cycle -/

/-- Claim C9: on a float-flow tree with unchanged inputs (same styles, same
intrinsic box widths, same parent-assigned width W), running the sequence
bubble → assign widths → assign heights a second time yields exactly the
same position rectangle (origin and size) for every node as the first run. -/
theorem c9_idempotent (W : Au) (t : FloatFlow) :
    PosEqT (runLayout W (runLayout W t)) (runLayout W t) := by
  have hpres : PresEqT (runLayout W t) t := presEq_run W t
  have h0 : PresEqT (setRootWidth W (runLayout W t)) (setRootWidth W t) :=
    presEq_trans.1 _ _ _ (presEq_setRootWidth W (runLayout W t))
      (presEq_trans.1 _ _ _ hpres
        (presEq_symm.1 _ _ (presEq_setRootWidth W t)))
  have h1 : EqBT (bubbleTree (setRootWidth W (runLayout W t)))
      (bubbleTree (setRootWidth W t)) := bubbleCongr.1 _ _ h0
  have hwroot : rootWidth (bubbleTree (setRootWidth W (runLayout W t))) =
      rootWidth (bubbleTree (setRootWidth W t)) := by
    rw [rootWidth_bubble, rootWidth_bubble, rootWidth_setRootWidth,
      rootWidth_setRootWidth]
  have h2 : EqWT
      (assignWidthsTreeRoot (bubbleTree (setRootWidth W (runLayout W t))))
      (assignWidthsTreeRoot (bubbleTree (setRootWidth W t))) :=
    widthCongrRoot _ _ h1 hwroot
  have h3 : PosEqXT (runLayout W (runLayout W t)) (runLayout W t) :=
    heightCongr.1 _ _ h2
  exact posEqX_to_posEq.1 _ _ h3 (rootOrigin_run W (runLayout W t))

end Servo
